import Mathlib

/-
Verification of the appkit telemetry facade: the leveled structured logger
(package log, built on go-kit log/level), the InfluxDB metrics sink and its
connectivity probe (package monitoring), and the Gorm call-instrumentation
adapter.  Go values are embedded shallowly: a go-kit logger context is the
list of key-value pairs it will prepend to every emitted record, maps are
association lists specified through lookup, durations are integer
nanoseconds, and the background probe loop is a small-step state machine.
-/

set_option autoImplicit false

namespace Appkit

/-- Severity levels of go-kit log/level (Crit in the repository maps to Error). -/
inductive Level where
  | debug
  | info
  | warn
  | error
deriving DecidableEq, Repr

/-- Values carried in log records: strings, integers, go-kit level values,
error values, tag maps, and slices of further values (a Go interface value
of arbitrary dynamic type). -/
inductive Val where
  | vStr (s : String)
  | vInt (n : Int)
  | vLevel (l : Level)
  | vErr (e : String)
  | vTags (ts : List (String × String))
  | vList (vs : List Val)

/-- A key-value pair of a structured log record. -/
abbrev Pair := String × Val

/-- A go-kit logger context: the key-value pairs prepended to every record it
emits.  Package log's Logger wraps exactly such a context. -/
abbrev Logger := List Pair

/-- go-kit log.With: appends the key-value pairs to the logger context. -/
def kitWith (l : Logger) (kvs : List Pair) : Logger := l ++ kvs

/-- go-kit log.WithPrefix: prepends the key-value pairs to the logger context. -/
def kitWithPre (l : Logger) (kvs : List Pair) : Logger := kvs ++ l

/-- go-kit level.Debug: WithPrefix of a level=debug pair. -/
def levelDebug (l : Logger) : Logger := kitWithPre l [("level", .vLevel .debug)]

/-- go-kit level.Info: WithPrefix of a level=info pair. -/
def levelInfo (l : Logger) : Logger := kitWithPre l [("level", .vLevel .info)]

/-- go-kit level.Warn: WithPrefix of a level=warn pair. -/
def levelWarn (l : Logger) : Logger := kitWithPre l [("level", .vLevel .warn)]

/-- go-kit level.Error: WithPrefix of a level=error pair. -/
def levelError (l : Logger) : Logger := kitWithPre l [("level", .vLevel .error)]

/-- A terminal Log call on a logger context: the emitted record is the
context's pairs followed by the call's pairs. -/
def emit (l : Logger) (kvs : List Pair) : List Pair := l ++ kvs

/-- The level payload of a value, when it is a go-kit level value. -/
def valLevel : Val → Option Level
  | .vLevel l => some l
  | _ => none

/-- The severity of a record as go-kit's level machinery reads it: the first
level-typed value among the record's pairs (the level filter scans the
key-value list and stops at the first level value). -/
def recordLevel : List Pair → Option Level
  | [] => none
  | (_, v) :: rest =>
    match valLevel v with
    | some l => some l
    | none => recordLevel rest

/-- The number of level-typed fields a record physically carries. -/
def countLevelPairs (rec : List Pair) : Nat :=
  (rec.filter (fun p => (valLevel p.2).isSome)).length

/-- Logger.With of package log: value receiver, returns a copy whose context
is log.With of the receiver's context and the given pairs. -/
def Logger.With (l : Logger) (keysvals : List Pair) : Logger := kitWith l keysvals

/-- A kerrs error value as seen by the log package: kerrs.Extract returns its
key-value context, its message, and its (possibly empty) stack trace.
Modelled from the spec: package kerrs is part of the repository but outside
the sources given here; the spec describes Extract as returning a message
string, ordered key-value pairs, and optional stack-trace text, all read-only. -/
structure KErr where
  keyvals : List Pair
  msg : String
  stacktrace : String

/-- Logger.WithError of package log: extracts the error context, appends a
msg field, appends a stacktrace field when the extracted trace is nonempty,
and wraps the result in level.Error. -/
def Logger.WithError (l : Logger) (err : KErr) : Logger :=
  let keysvals := err.keyvals ++ [("msg", .vStr err.msg)]
  let keysvals := keysvals ++
    (if err.stacktrace.length > 0 then [("stacktrace", .vStr err.stacktrace)] else [])
  levelError (kitWith l keysvals)

/-- Logger.WrapError of package log: nil errors are returned unchanged,
otherwise the error is wrapped by kerrs.Wrapv and handed to WithError.
The Go error argument is an Option: none is Go's nil error; a some value is
the kerrs error the non-nil branch wraps (kerrs.Wrapv, modelled from the
spec as producing the error's extractable context unchanged). -/
def Logger.WrapError (l : Logger) (err : Option KErr) : Logger :=
  match err with
  | none => l
  | some e => l.WithError e

/-- Logger.Debug of package log: level.Debug on the receiver's context. -/
def Logger.Debug (l : Logger) : Logger := levelDebug l

/-- Logger.Info of package log: level.Info on the receiver's context. -/
def Logger.Info (l : Logger) : Logger := levelInfo l

/-- Logger.Crit of package log: level.Error on the receiver's context. -/
def Logger.Crit (l : Logger) : Logger := levelError l

/-- Logger.Error of package log: level.Error on the receiver's context. -/
def Logger.Error (l : Logger) : Logger := levelError l

/-- Logger.Warn of package log: level.Warn on the receiver's context. -/
def Logger.Warn (l : Logger) : Logger := levelWarn l

/-- One severity-setting call of the Logger API. -/
inductive SevCall where
  | debug
  | info
  | warn
  | error
  | crit
deriving DecidableEq, Repr

/-- The level value a severity call stamps on the record (Crit stamps Error). -/
def sevLevel : SevCall → Level
  | .debug => .debug
  | .info => .info
  | .warn => .warn
  | .error => .error
  | .crit => .error

/-- Apply one severity-setting call to a logger. -/
def applySev (l : Logger) : SevCall → Logger
  | .debug => l.Debug
  | .info => l.Info
  | .warn => l.Warn
  | .error => l.Error
  | .crit => l.Crit

/-- Apply a sequence of severity-setting calls, first element first. -/
def applySevSeq (l : Logger) (seq : List SevCall) : Logger :=
  seq.foldl applySev l

/-- Apply a sequence of With calls, first element first. -/
def applyWiths (l : Logger) (kvss : List (List Pair)) : Logger :=
  kvss.foldl Logger.With l

/-- The printed name of a level value, as go-kit renders it. -/
def levelName : Level → String
  | .debug => "debug"
  | .info => "info"
  | .warn => "warn"
  | .error => "error"

mutual

/-- Rendering of a value, standing in for Go's fmt.Sprintf with percent-plus-v. -/
def Val.render : Val → String
  | .vStr s => s
  | .vInt n => toString n
  | .vLevel l => levelName l
  | .vErr e => e
  | .vTags ts => "map[" ++ String.intercalate " " (ts.map (fun p => p.1 ++ ":" ++ p.2)) ++ "]"
  | .vList vs => "[" ++ Val.renderItems vs ++ "]"

/-- Space-separated rendering of a slice's items. -/
def Val.renderItems : List Val → String
  | [] => ""
  | [v] => Val.render v
  | v :: rest => Val.render v ++ " " ++ Val.renderItems rest

end

/-- sqlLog of package log: picks Debug, then overrides with Warn above 100ms
or Info above 50ms; emits query_us (the duration divided by time.Microsecond,
truncated), the query text, and the rendered bound values only when at least
one was supplied.  The duration is in integer nanoseconds; the returned list
is the single emitted record. -/
def sqlLog (l : Logger) (dur : Int) (query : String) (values : List Val) : List Pair :=
  let logger :=
    if dur > 100 * 1000000 then l.Warn
    else if dur > 50 * 1000000 then l.Info
    else l.Debug
  let args := [("query_us", Val.vInt (dur.tdiv 1000)), ("query", Val.vStr query)]
  let args := args ++
    (if values.length > 0 then [("values", Val.vStr ("[" ++ Val.renderItems values ++ "]"))] else [])
  emit logger args

/-- The severity the spec assigns to a timed call of a given duration in
nanoseconds: Warn above 100ms, Info above 50ms up to and including 100ms,
Debug at or below 50ms.  Stated from the spec, to be compared with sqlLog. -/
def specSqlLevel (dur : Int) : Level :=
  if dur > 100 * 1000000 then Level.warn
  else if dur > 50 * 1000000 then Level.info
  else Level.debug

/-- Whether a Go value satisfies a type assertion to the error interface. -/
def Val.isGoError : Val → Bool
  | .vErr _ => true
  | _ => false

/-- logLog of package log, returning the list of emitted records in order.
The single-error branch logs at Error and then falls through (there is no
return statement), so the trailing Info emission with the still-empty msg
also runs in that branch. -/
def logLog (l : Logger) (values : List Val) : List (List Pair) :=
  match values with
  | [Val.vErr e] =>
    [emit l.Error [("msg", Val.vErr e)], emit l.Info [("msg", Val.vStr "")]]
  | [v] =>
    [emit l.Info [("msg", Val.vStr (Val.render v))]]
  | _ =>
    [emit l.Info [("msg", Val.vStr ("[" ++ Val.renderItems values ++ "]"))]]

/-- GormLogger.Print of package log, returning the emitted records in order.
On more than one value it derives the logger with type and source; the sql
branch needs values shaped as duration, query string and bound-value slice
(a shape mismatch would panic the Go type assertion, returned as none); the
log branch passes the remaining values slice to logLog as ONE variadic
argument (the Go call site omits the spread, so logLog sees a single slice
value); other type tags emit nothing.  With at most one value it logs the
rendered values at Info. -/
def GormPrint (l : Logger) (values : List Val) : Option (List (List Pair)) :=
  if values.length > 1 then
    let lvl := values.get? 0
    let source := values.get? 1
    match lvl, source with
    | some lv, some src =>
      let log := l.With [("type", lv), ("source", src)]
      match lv with
      | Val.vStr s =>
        if s = "sql" then
          match values.get? 2, values.get? 3, values.get? 4 with
          | some (Val.vInt dur), some (Val.vStr query), some (Val.vList vs) =>
            some [sqlLog log dur query vs]
          | _, _, _ => none
        else if s = "log" then
          some (logLog log [Val.vList (values.drop 2)])
        else
          some []
      | _ => some []
    | _, _ => none
  else
    some [emit l.Info [("msg", Val.vStr ("[" ++ Val.renderItems values ++ "]"))]]

/-- A Go map write m[k] = v on an association list with unique keys: the
existing entry for k is overwritten in place, otherwise the entry is added. -/
def mapSet : List (String × Val) → String → Val → List (String × Val)
  | [], k, v => [(k, v)]
  | (a, b) :: rest, k, v =>
    if a = k then (k, v) :: rest else (a, b) :: mapSet rest k v

/-- The influxdbMonitor of package monitoring: the client's write behaviour
is abstracted away, so the state is the database name and the logger. -/
structure InfluxdbMonitor where
  database : String
  logger : Logger

/-- influxdbMonitor.InsertRecord.  The backend outcome of the single
client.Write call is passed in as writeErr (none = success).  Returns the
fields map after the call (the Go map is shared with the caller, so this is
what the caller's map holds afterwards) and the list of records the call
logs.  Nothing is returned to the caller: the signature has no error result. -/
def InsertRecord (im : InfluxdbMonitor) (measurement : String) (value : Val)
    (tags : List (String × String)) (fields : Option (List (String × Val)))
    (t : Int) (writeErr : Option String) :
    List (String × Val) × List (List Pair) :=
  let fields0 := match fields with
    | none => []
    | some f => f
  let fields1 := mapSet fields0 "value" value
  let _ := t
  match writeErr with
  | none => (fields1, [])
  | some e =>
    (fields1,
     [emit im.logger.Error
       [("err", Val.vErr e),
        ("database", Val.vStr im.database),
        ("measurement", Val.vStr measurement),
        ("value", value),
        ("tags", Val.vTags tags),
        ("during", Val.vStr "influxdb.Client.Write"),
        ("msg", Val.vStr ("Error inserting record into " ++ measurement ++ ": " ++ e))]])

/-- A parsed URL: the fields of net/url.URL that package monitoring reads.
Modelled from the Go standard library's net/url, a dependency outside the
repository. -/
structure GoURL where
  scheme : String
  user : String
  host : String
  path : String
deriving DecidableEq, Repr

/-- Whether a character may continue a URL scheme (net/url getScheme). -/
def isSchemeTail (c : Char) : Bool :=
  c.isAlpha || c.isDigit || c = '+' || c = '-' || c = '.'

/-- net/url getScheme: scans for a colon ending a valid scheme; a colon in
first position is the missing-protocol-scheme error; a non-scheme character
before any colon means the URL is relative (no scheme).  acc holds the
scheme characters read so far, in reverse.  Modelled from the Go standard
library. -/
def getSchemeAux (acc : List Char) : List Char → Except String (Option (String × List Char))
  | [] => Except.ok none
  | c :: rest =>
    if c = ':' then
      if acc.isEmpty then Except.error "missing protocol scheme"
      else Except.ok (some (String.mk acc.reverse, rest))
    else if c.isAlpha then getSchemeAux (c :: acc) rest
    else if isSchemeTail c then
      if acc.isEmpty then Except.ok none else getSchemeAux (c :: acc) rest
    else Except.ok none

/-- Whether the string holds an ASCII control byte (net/url rejects these). -/
def hasCTL (s : String) : Bool :=
  s.toList.any (fun c => c.val < 0x20 || c.val = 0x7f)

/-- Split an authority component into userinfo and host at the last at-sign. -/
def splitUserHost (auth : List Char) : String × String :=
  match (auth.reverse.span (fun c => c ≠ '@')) with
  | (revHost, []) => ("", String.mk revHost.reverse)
  | (revHost, _ :: revUserRest) =>
    (String.mk revUserRest.reverse, String.mk revHost.reverse)

/-- The username of the userinfo (the part before the first colon). -/
def userinfoName (user : String) : String :=
  String.mk (user.toList.takeWhile (fun c => c ≠ ':'))

/-- net/url Parse, restricted to what package monitoring consumes: rejects
control characters and a leading colon, extracts and lowercases the scheme,
and splits a double-slash authority into userinfo, host and path.  Escape
and host-validity errors of the full parser are not modelled; none of the
inputs reasoned about below need them.  Modelled from the Go standard
library. -/
def urlParse (raw : String) : Except String GoURL :=
  if hasCTL raw then Except.error "invalid control character in URL"
  else
    match getSchemeAux [] raw.toList with
    | Except.error e => Except.error e
    | Except.ok none => parseAfterScheme "" raw.toList
    | Except.ok (some (sch, rest)) => parseAfterScheme sch.toLower rest
where
  /-- The part after the scheme: a leading double slash introduces an
  authority running to the next slash; anything else is the path. -/
  parseAfterScheme (scheme : String) (rest : List Char) : Except String GoURL :=
    match rest with
    | '/' :: '/' :: r =>
      let auth := r.takeWhile (fun c => c ≠ '/')
      let path := r.dropWhile (fun c => c ≠ '/')
      let (user, host) := splitUserHost auth
      Except.ok { scheme := scheme, user := userinfoName user, host := host,
                  path := String.mk path }
    | r => Except.ok { scheme := scheme, user := "", host := "", path := String.mk r }

/-- net/url URL.IsAbs: a URL is absolute exactly when it has a scheme. -/
def GoURL.IsAbs (u : GoURL) : Bool := u.scheme ≠ ""

/-- The two construction failures of NewInfluxdbMonitor: the wrapped
url.Parse error and the not-absolute error. -/
inductive MonitorErr where
  | parseFail (e : String) (url : String)
  | notAbsolute (url : String)
deriving DecidableEq, Repr

/-- The successful result of NewInfluxdbMonitor: the constructed monitor,
the records logged during construction, and whether the connectivity-probe
goroutine was started. -/
structure MonitorCtor where
  monitor : InfluxdbMonitor
  startupLogs : List (List Pair)
  probeStarted : Bool

/-- NewInfluxdbMonitor of package monitoring: parses the config URL,
failing on a parse error or a non-absolute URL before anything is built;
otherwise builds the monitor with the database taken from the path with
leading slashes trimmed, starts the probe goroutine, and logs one Info
record announcing the target.  An error result carries no monitor, no
startup log and no started probe. -/
def NewInfluxdbMonitor (config : String) (logger : Logger) :
    Except MonitorErr MonitorCtor :=
  match urlParse config with
  | Except.error e => Except.error (MonitorErr.parseFail e config)
  | Except.ok u =>
    if u.IsAbs = false then Except.error (MonitorErr.notAbsolute config)
    else
      let database := String.mk (u.path.toList.dropWhile (fun c => c = '/'))
      let monitor : InfluxdbMonitor := { database := database, logger := logger }
      let logger2 := kitWith logger
        [("scheme", Val.vStr u.scheme), ("username", Val.vStr u.user),
         ("database", Val.vStr database), ("host", Val.vStr u.host)]
      Except.ok
        { monitor := monitor,
          startupLogs :=
            [emit (Logger.Info logger2)
              [("msg", Val.vStr ("influxdb instrumentation writing to " ++ u.scheme ++
                 "://" ++ u.user ++ "@" ++ u.host ++ "/" ++ database))]],
          probeStarted := true }

/-- Whether a construction result is the parse-error failure. -/
def isParseFail (r : Except MonitorErr MonitorCtor) : Bool :=
  match r with
  | Except.error (MonitorErr.parseFail _ _) => true
  | _ => false

/-- The records one iteration of the probe's check logs: a failed Ping logs
one Warn record with the error, the failed operation and a message; a
successful Ping logs nothing. -/
def pingLog (l : Logger) (pingErr : Option String) : List (List Pair) :=
  match pingErr with
  | none => []
  | some e =>
    [emit l.Warn
      [("err", Val.vErr e),
       ("during", Val.vStr "influxdb.Client.Ping"),
       ("msg", Val.vStr ("couldn't ping influxdb: " ++ e))]]

/-- State of the probe goroutine: checks is the number of Ping calls issued,
timerPending the number of firings the timer channel still has to deliver,
and blocked whether the goroutine is stuck receiving on the drained channel. -/
structure ProbeState where
  checks : Nat
  timerPending : Nat
  blocked : Bool
deriving DecidableEq, Repr

/-- time.NewTimer delivers a single firing on its channel, and the probe
loop never resets the timer, so one delivery is all the channel ever has. -/
def newTimerPending : Nat := 1

/-- One iteration of the probe goroutine's loop: issue a Ping, then receive
from the timer channel; when the channel has no pending delivery the receive
blocks forever, freezing the state. -/
def probeStep (s : ProbeState) : ProbeState :=
  if s.blocked then s
  else
    let s1 : ProbeState := { s with checks := s.checks + 1 }
    if s1.timerPending > 0 then { s1 with timerPending := s1.timerPending - 1 }
    else { s1 with blocked := true }

/-- The probe goroutine's state after n loop iterations, starting from a
fresh timer and no checks issued. -/
def probeRun (n : Nat) : ProbeState :=
  probeStep^[n] { checks := 0, timerPending := newTimerPending, blocked := false }

/-- A severity call prepends a single level pair to the logger context. -/
theorem applySev_cons (l : Logger) (s : SevCall) :
    applySev l s = ("level", Val.vLevel (sevLevel s)) :: l := by
  cases s <;> rfl

/-- Unfolding one step of a severity-call sequence. -/
theorem applySevSeq_cons (l : Logger) (s : SevCall) (rest : List SevCall) :
    applySevSeq l (s :: rest) = applySevSeq (applySev l s) rest := rfl

/-- The record level of a record headed by a level pair. -/
theorem recordLevel_cons_level (k : String) (L : Level) (rest : List Pair) :
    recordLevel ((k, Val.vLevel L) :: rest) = some L := rfl

/-- Counting level pairs distributes over append. -/
theorem countLevelPairs_append (xs ys : List Pair) :
    countLevelPairs (xs ++ ys) = countLevelPairs xs + countLevelPairs ys := by
  simp [countLevelPairs, List.filter_append]

/-- A level-valued head adds one to the level-pair count. -/
theorem countLevelPairs_cons_level (k : String) (L : Level) (rest : List Pair) :
    countLevelPairs ((k, Val.vLevel L) :: rest) = countLevelPairs rest + 1 := by
  simp [countLevelPairs, List.filter_cons, valLevel]

/-- A sequence of severity calls adds its length to the level-pair count. -/
theorem countLevelPairs_applySevSeq (seq : List SevCall) (l : Logger) :
    countLevelPairs (applySevSeq l seq) = countLevelPairs l + seq.length := by
  induction seq generalizing l with
  | nil => rfl
  | cons s rest ih =>
    rw [applySevSeq_cons, ih, applySev_cons, countLevelPairs_cons_level, List.length_cons]
    omega

/-- After a nonempty sequence of severity calls, the record level read from
the emitted record is the level of the last call. -/
theorem recordLevel_applySevSeq (seq : List SevCall) (l : Logger) (args : List Pair)
    (h : seq ≠ []) :
    recordLevel (emit (applySevSeq l seq) args) = some (sevLevel (seq.getLast h)) := by
  induction seq generalizing l with
  | nil => exact absurd rfl h
  | cons s rest ih =>
    cases rest with
    | nil =>
      rw [applySevSeq_cons]
      simp [applySevSeq, applySev_cons, emit, recordLevel, valLevel]
    | cons s2 rest2 =>
      rw [applySevSeq_cons, List.getLast_cons (by simp)]
      exact ih (applySev l s) (by simp)

/-- A With-call sequence appends the concatenation of its pair lists. -/
theorem applyWiths_eq (kvss : List (List Pair)) (l : Logger) :
    applyWiths l kvss = l ++ kvss.flatten := by
  induction kvss generalizing l with
  | nil => simp [applyWiths]
  | cons kvs rest ih =>
    have h1 : applyWiths l (kvs :: rest) = applyWiths (l ++ kvs) rest := rfl
    rw [h1, ih, List.flatten_cons, ← List.append_assoc]

/-- Looking up the written key after a Go map write yields the new value. -/
theorem lookup_mapSet_self (m : List (String × Val)) (k : String) (v : Val) :
    (mapSet m k v).lookup k = some v := by
  induction m with
  | nil => simp [mapSet, List.lookup]
  | cons p rest ih =>
    obtain ⟨a, b⟩ := p
    by_cases hak : a = k
    · subst hak
      simp [mapSet, List.lookup]
    · have hka : (k == a) = false := beq_eq_false_iff_ne.mpr (Ne.symm hak)
      simp [mapSet, hak, List.lookup, hka, ih]

/-- Looking up any other key after a Go map write is unchanged. -/
theorem lookup_mapSet_ne (m : List (String × Val)) (k k2 : String) (v : Val)
    (h : k2 ≠ k) : (mapSet m k v).lookup k2 = m.lookup k2 := by
  induction m with
  | nil =>
    have hne : (k2 == k) = false := beq_eq_false_iff_ne.mpr h
    simp [mapSet, List.lookup, hne]
  | cons p rest ih =>
    obtain ⟨a, b⟩ := p
    by_cases hak : a = k
    · subst hak
      have hne : (k2 == a) = false := beq_eq_false_iff_ne.mpr h
      simp [mapSet, List.lookup, hne]
    · cases hk2a : (k2 == a) with
      | true => simp [mapSet, hak, List.lookup, hk2a]
      | false => simp [mapSet, hak, List.lookup, hk2a, ih]

/-- Claim C1: for every logger and every sequence of With calls, the derived
logger's emitted fields are the parent's fields followed by the added pairs
in append order, and the parent is unchanged: a pair the child added that
the parent's own emission does not already contain never appears in records
emitted through the parent. -/
theorem claim1_with_appends (l : Logger) (kvss : List (List Pair)) (args : List Pair) :
    emit (applyWiths l kvss) args = l ++ kvss.flatten ++ args
    ∧ (∀ p : Pair, p ∈ kvss.flatten → p ∉ l → p ∉ args → p ∉ emit l args) := by
  constructor
  · rw [emit, applyWiths_eq]
  · intro p _ hl ha hmem
    rw [emit] at hmem
    rcases List.mem_append.mp hmem with h | h
    · exact hl h
    · exact ha h

/-- Witness for claim C1 at a concrete derivation. -/
theorem claim1_w :
    emit (applyWiths [] [[("a", Val.vStr "1")]]) [] = [("a", Val.vStr "1")]
    ∧ ("a", Val.vStr "1") ∉ emit ([] : Logger) [] := by
  have h := claim1_with_appends [] [[("a", Val.vStr "1")]] []
  exact ⟨by simpa using h.1, h.2 ("a", Val.vStr "1") (by simp) (by simp) (by simp)⟩

/-- Counterexample for claim C5: applying Debug then Info before the
terminal Log call yields a record physically carrying two severity fields,
not exactly one. -/
theorem claim5_counterexample :
    countLevelPairs (emit (applySevSeq [] [SevCall.debug, SevCall.info])
      [("msg", Val.vStr "x")]) = 2
    ∧ countLevelPairs (emit (applySevSeq [] [SevCall.debug, SevCall.info])
      [("msg", Val.vStr "x")]) ≠ 1 := by
  constructor
  · rfl
  · decide

/-- Claim C5 as amended: after a nonempty sequence of severity calls the
emitted record's severity, as go-kit's level machinery reads it (the first
level field), is the one set by the last severity call — earlier calls do
not affect it — but the record physically carries one level field per
severity call, most recent first, rather than exactly one. -/
theorem claim5_last_severity_wins (l : Logger) (seq : List SevCall) (args : List Pair)
    (h : seq ≠ []) :
    recordLevel (emit (applySevSeq l seq) args) = some (sevLevel (seq.getLast h))
    ∧ countLevelPairs (emit (applySevSeq l seq) args) =
        countLevelPairs l + seq.length + countLevelPairs args := by
  refine ⟨recordLevel_applySevSeq seq l args h, ?_⟩
  rw [emit, countLevelPairs_append, countLevelPairs_applySevSeq]

/-- Witness for claim C5: Debug then Info then Log emits at Info. -/
theorem claim5_w :
    recordLevel (emit (applySevSeq [] [SevCall.debug, SevCall.info])
      [("msg", Val.vStr "x")]) = some Level.info := by
  have h := claim5_last_severity_wins [] [SevCall.debug, SevCall.info]
    [("msg", Val.vStr "x")] (by simp)
  exact h.1

/-- Claim C9: WrapError applied to the nil error returns the receiver
unchanged — identical fields and severity, and nothing is emitted (the call
performs no Log). -/
theorem claim9_wraperror_nil (l : Logger) : Logger.WrapError l none = l := rfl

/-- Claim C6: WithError on a non-nil error emits records that carry the
error context's key-value pairs and a msg field with the extracted message,
carry a stacktrace field exactly when the extracted trace is nonempty (the
only-if direction holds whenever no stacktrace field was already present in
the logger, the error context or the Log call), and are forced to Error
severity. -/
theorem claim6_witherror (l : Logger) (e : KErr) (args : List Pair) :
    recordLevel (emit (Logger.WithError l e) args) = some Level.error
    ∧ ("msg", Val.vStr e.msg) ∈ emit (Logger.WithError l e) args
    ∧ (∀ p ∈ e.keyvals, p ∈ emit (Logger.WithError l e) args)
    ∧ (e.stacktrace ≠ "" →
        ("stacktrace", Val.vStr e.stacktrace) ∈ emit (Logger.WithError l e) args)
    ∧ ((∀ v, ("stacktrace", v) ∉ l) → (∀ v, ("stacktrace", v) ∉ e.keyvals) →
        (∀ v, ("stacktrace", v) ∉ args) → e.stacktrace = "" →
        ∀ v, ("stacktrace", v) ∉ emit (Logger.WithError l e) args) := by
  refine ⟨rfl, ?_, ?_, ?_, ?_⟩
  · simp [Logger.WithError, levelError, kitWithPre, kitWith, emit]
  · intro p hp
    simp [Logger.WithError, levelError, kitWithPre, kitWith, emit]
    tauto
  · intro h
    have hlen : e.stacktrace.length > 0 := by
      cases hs : e.stacktrace with
      | mk cs =>
        cases cs with
        | nil => exact absurd hs h
        | cons c cs2 => simp [String.length, hs]
    simp [Logger.WithError, levelError, kitWithPre, kitWith, emit, hlen]
  · intro h1 h2 h3 h4 v
    simp [Logger.WithError, levelError, kitWithPre, kitWith, emit, h4]
    exact ⟨h1 v, h2 v, h3 v⟩

/-- Witness for claim C6 at a concrete error with a nonempty stack trace. -/
theorem claim6_w :
    recordLevel (emit (Logger.WithError []
      { keyvals := [("k", Val.vStr "v")], msg := "boom", stacktrace := "tr" }) [])
      = some Level.error
    ∧ ("msg", Val.vStr "boom") ∈ emit (Logger.WithError []
      { keyvals := [("k", Val.vStr "v")], msg := "boom", stacktrace := "tr" }) []
    ∧ ("stacktrace", Val.vStr "tr") ∈ emit (Logger.WithError []
      { keyvals := [("k", Val.vStr "v")], msg := "boom", stacktrace := "tr" }) [] := by
  have h := claim6_witherror []
    { keyvals := [("k", Val.vStr "v")], msg := "boom", stacktrace := "tr" } []
  exact ⟨h.1, h.2.1, h.2.2.2.1 (by decide)⟩

/-- The shape of the record sqlLog emits: the severity of specSqlLevel in
front of the logger's fields, then the duration in microseconds, the query,
and the rendered bound values when any were supplied. -/
theorem sqlLog_eq (l : Logger) (dur : Int) (q : String) (vs : List Val) :
    sqlLog l dur q vs =
      ("level", Val.vLevel (specSqlLevel dur)) ::
        (l ++ ([("query_us", Val.vInt (dur.tdiv 1000)), ("query", Val.vStr q)] ++
          (if vs.length > 0 then
            [("values", Val.vStr ("[" ++ Val.renderItems vs ++ "]"))]
           else []))) := by
  by_cases h1 : (100000000 : Int) < dur <;> by_cases h2 : (50000000 : Int) < dur <;>
    simp [sqlLog, specSqlLevel, h1, h2, Logger.Warn, Logger.Info, Logger.Debug,
      levelWarn, levelInfo, levelDebug, kitWithPre, emit]

/-- Claim C7: the record emitted for a timed call carries the severity the
spec's duration boundaries dictate (Warn above 100ms, Info above 50ms up to
100ms, Debug otherwise, with 50ms mapping to Debug, 50.001ms and 100ms to
Info, and 100.001ms to Warn), includes the elapsed microseconds and the
statement, and includes rendered bound values exactly when at least one was
supplied (the only-if direction holds whenever the logger itself carries no
values field). -/
theorem claim7_duration_escalation (l : Logger) (dur : Int) (q : String) (vs : List Val) :
    recordLevel (sqlLog l dur q vs) = some (specSqlLevel dur)
    ∧ specSqlLevel (50 * 1000000) = Level.debug
    ∧ specSqlLevel 50001000 = Level.info
    ∧ specSqlLevel (100 * 1000000) = Level.info
    ∧ specSqlLevel 100001000 = Level.warn
    ∧ ("query_us", Val.vInt (dur.tdiv 1000)) ∈ sqlLog l dur q vs
    ∧ ("query", Val.vStr q) ∈ sqlLog l dur q vs
    ∧ (vs ≠ [] →
        ("values", Val.vStr ("[" ++ Val.renderItems vs ++ "]")) ∈ sqlLog l dur q vs)
    ∧ ((∀ v, ("values", v) ∉ l) → vs = [] → ∀ v, ("values", v) ∉ sqlLog l dur q vs) := by
  refine ⟨?_, by decide, by decide, by decide, by decide, ?_, ?_, ?_, ?_⟩
  · rw [sqlLog_eq]; rfl
  · rw [sqlLog_eq]; simp
  · rw [sqlLog_eq]; simp
  · intro hvs
    rw [sqlLog_eq]
    have : vs.length > 0 := List.length_pos.mpr hvs
    simp [this]
  · intro hl hvs v
    rw [sqlLog_eq]
    simp [hvs]
    exact hl v

/-- Witness for claim C7 at the 50.001ms boundary with no bound values. -/
theorem claim7_w :
    recordLevel (sqlLog [] 50001000 "SELECT 1" []) = some (specSqlLevel 50001000)
    ∧ specSqlLevel 50001000 = Level.info
    ∧ ("query", Val.vStr "SELECT 1") ∈ sqlLog [] 50001000 "SELECT 1" []
    ∧ ("values", Val.vStr "[]") ∉ sqlLog [] 50001000 "SELECT 1" [] := by
  have h := claim7_duration_escalation [] 50001000 "SELECT 1" []
  obtain ⟨ha, _, hc, _, _, _, hg, _, hi⟩ := h
  exact ⟨ha, hc, hg, hi (by simp) rfl (Val.vStr "[]")⟩

/-- Claim C2: a failed backend write in InsertRecord is not surfaced to the
caller (the operation's result type carries no error, mirroring the Go
signature), and logs exactly one Error-level record containing the
underlying error, the database, the measurement, the value and the tags,
while a successful write logs nothing; there is no retry, so the failed
call's log output is that single record. -/
theorem claim2_insertrecord (im : InfluxdbMonitor) (m : String) (v : Val)
    (tags : List (String × String)) (fields : Option (List (String × Val)))
    (t : Int) (e : String) :
    (InsertRecord im m v tags fields t (some e)).2.length = 1
    ∧ (∀ r ∈ (InsertRecord im m v tags fields t (some e)).2,
        recordLevel r = some Level.error
        ∧ ("err", Val.vErr e) ∈ r
        ∧ ("database", Val.vStr im.database) ∈ r
        ∧ ("measurement", Val.vStr m) ∈ r
        ∧ ("value", v) ∈ r
        ∧ ("tags", Val.vTags tags) ∈ r)
    ∧ (InsertRecord im m v tags fields t none).2 = [] := by
  refine ⟨rfl, ?_, rfl⟩
  intro r hr
  have hr2 : r = emit im.logger.Error
      [("err", Val.vErr e), ("database", Val.vStr im.database),
       ("measurement", Val.vStr m), ("value", v), ("tags", Val.vTags tags),
       ("during", Val.vStr "influxdb.Client.Write"),
       ("msg", Val.vStr ("Error inserting record into " ++ m ++ ": " ++ e))] := by
    simpa [InsertRecord] using hr
  subst hr2
  refine ⟨rfl, ?_, ?_, ?_, ?_, ?_⟩ <;>
    simp [Logger.Error, levelError, kitWithPre, emit]

/-- Witness for claim C2 at a concrete failing write. -/
theorem claim2_w :
    (InsertRecord ⟨"db", []⟩ "meas" (Val.vInt 7) [("t", "x")] none 0 (some "boom")).2.length = 1
    ∧ recordLevel (emit (Logger.Error ([] : Logger))
        [("err", Val.vErr "boom"), ("database", Val.vStr "db"),
         ("measurement", Val.vStr "meas"), ("value", Val.vInt 7),
         ("tags", Val.vTags [("t", "x")]),
         ("during", Val.vStr "influxdb.Client.Write"),
         ("msg", Val.vStr "Error inserting record into meas: boom")]) = some Level.error := by
  have h := claim2_insertrecord ⟨"db", []⟩ "meas" (Val.vInt 7) [("t", "x")] none 0 "boom"
  refine ⟨h.1, ?_⟩
  have h2 := h.2.1 (emit (Logger.Error ([] : Logger))
    [("err", Val.vErr "boom"), ("database", Val.vStr "db"),
     ("measurement", Val.vStr "meas"), ("value", Val.vInt 7),
     ("tags", Val.vTags [("t", "x")]),
     ("during", Val.vStr "influxdb.Client.Write"),
     ("msg", Val.vStr "Error inserting record into meas: boom")])
    (List.mem_singleton.mpr rfl)
  exact h2.1

/-- Claim C10: InsertRecord writes the value field into the caller's own
fields map — afterwards the map holds "value" bound to the submitted value,
every other key is unchanged — and a nil fields argument makes the call use
a fresh map holding only that binding, leaving the caller's nil untouched. -/
theorem claim10_fields_mutation (im : InfluxdbMonitor) (m : String) (v : Val)
    (tags : List (String × String)) (flds : List (String × Val)) (t : Int)
    (we : Option String) :
    ((InsertRecord im m v tags (some flds) t we).1).lookup "value" = some v
    ∧ (∀ k, k ≠ "value" →
        ((InsertRecord im m v tags (some flds) t we).1).lookup k = flds.lookup k)
    ∧ (InsertRecord im m v tags none t we).1 = [("value", v)] := by
  refine ⟨?_, ?_, ?_⟩
  · cases we <;> simp [InsertRecord, lookup_mapSet_self]
  · intro k hk
    cases we <;> simp [InsertRecord, lookup_mapSet_ne _ _ _ _ hk]
  · cases we <;> rfl

/-- Witness for claim C10 at a concrete map holding a prior value entry. -/
theorem claim10_w :
    ((InsertRecord ⟨"db", []⟩ "m" (Val.vInt 3) []
        (some [("other", Val.vStr "x"), ("value", Val.vStr "old")]) 0 none).1).lookup "value"
      = some (Val.vInt 3)
    ∧ ((InsertRecord ⟨"db", []⟩ "m" (Val.vInt 3) []
        (some [("other", Val.vStr "x"), ("value", Val.vStr "old")]) 0 none).1).lookup "other"
      = some (Val.vStr "x") := by
  have h := claim10_fields_mutation ⟨"db", []⟩ "m" (Val.vInt 3) []
    [("other", Val.vStr "x"), ("value", Val.vStr "old")] 0 none
  exact ⟨h.1, (h.2.1 "other" (by decide)).trans rfl⟩

/-- Claim C8, observed failure: on a single error payload logLog emits TWO
records — the Error record with the error as msg, then (for want of a
return statement) an Info record with an empty msg — not exactly one; and
through GormLogger.Print the same payload reaches logLog wrapped in a slice
(the call site passes the remaining values without a variadic spread), so
the adapter emits a single Info record and never the Error one. -/
theorem claim8_loglog_double_emit :
    logLog [] [Val.vErr "boom"] =
      [[("level", Val.vLevel Level.error), ("msg", Val.vErr "boom")],
       [("level", Val.vLevel Level.info), ("msg", Val.vStr "")]]
    ∧ (logLog [] [Val.vErr "boom"]).length = 2
    ∧ GormPrint [] [Val.vStr "log", Val.vStr "src", Val.vErr "boom"] =
        some [[("level", Val.vLevel Level.info), ("type", Val.vStr "log"),
               ("source", Val.vStr "src"), ("msg", Val.vStr "[boom]")]] := by
  refine ⟨rfl, rfl, rfl⟩

/-- One more loop iteration of the probe applies one probeStep. -/
theorem probeRun_succ (n : Nat) : probeRun (n + 1) = probeStep (probeRun n) :=
  Function.iterate_succ_apply' probeStep n _

/-- Claim C3, observed failure: because the loop waits on a time.NewTimer
channel that fires once and is never reset, the probe issues its first check
immediately and its second after the single firing, then blocks forever: no
state ever reaches three checks, so check N+1 is not issued after N = 2
consecutive failures.  The per-check logging itself matches the claim: a
failed Ping logs one Warn record carrying the error and the failed
operation, a successful Ping logs nothing. -/
theorem claim3_probe_stops :
    (∀ n, probeRun (n + 2) = { checks := 2, timerPending := 0, blocked := true })
    ∧ (∀ n, (probeRun n).checks ≤ 2)
    ∧ (∀ (l : Logger) (e : String),
        (pingLog l (some e)).map recordLevel = [some Level.warn]
        ∧ ("err", Val.vErr e) ∈ (pingLog l (some e)).flatten
        ∧ ("during", Val.vStr "influxdb.Client.Ping") ∈ (pingLog l (some e)).flatten)
    ∧ (∀ l, pingLog l none = []) := by
  have h1 : ∀ n, probeRun (n + 2) = { checks := 2, timerPending := 0, blocked := true } := by
    intro n
    induction n with
    | zero => rfl
    | succ k ih =>
      have hs : k + 1 + 2 = (k + 2) + 1 := rfl
      rw [hs, probeRun_succ, ih]
      rfl
  refine ⟨h1, ?_, ?_, fun l => rfl⟩
  · intro n
    match n with
    | 0 => decide
    | 1 => decide
    | (k + 2) => rw [h1 k]
  · intro l e
    refine ⟨rfl, ?_, ?_⟩ <;>
      simp [pingLog, Logger.Warn, levelWarn, kitWithPre, emit]

/-- Counterexample for claim C4: the string not-a-url is a syntactically
valid relative URL, so construction fails with the not-absolute error, not
with a parse error. -/
theorem claim4_counterexample :
    NewInfluxdbMonitor "not-a-url" [] =
      Except.error (MonitorErr.notAbsolute "not-a-url")
    ∧ isParseFail (NewInfluxdbMonitor "not-a-url" []) = false := ⟨rfl, rfl⟩

/-- Claim C4 as amended: a configuration string url.Parse rejects fails
construction with a parse error, and one that parses without a scheme fails
with the not-absolute error; in both cases the result is an error carrying
no monitor, so no startup log is emitted and no probe is started.  In
particular not-a-url, which parses as a relative URL, fails with the
not-absolute error. -/
theorem claim4_url_validation (s : String) (l : Logger) :
    (∀ e, urlParse s = Except.error e →
      NewInfluxdbMonitor s l = Except.error (MonitorErr.parseFail e s))
    ∧ (∀ u, urlParse s = Except.ok u → u.IsAbs = false →
      NewInfluxdbMonitor s l = Except.error (MonitorErr.notAbsolute s)) := by
  constructor
  · intro e he
    simp [NewInfluxdbMonitor, he]
  · intro u hu habs
    simp [NewInfluxdbMonitor, hu, habs]

/-- Witness for claim C4: a relative path yields the not-absolute error and
a leading colon yields the parse error. -/
theorem claim4_w :
    NewInfluxdbMonitor "/relative/path" [] =
      Except.error (MonitorErr.notAbsolute "/relative/path")
    ∧ NewInfluxdbMonitor "://x" [] =
      Except.error (MonitorErr.parseFail "missing protocol scheme" "://x") := by
  have h1 := claim4_url_validation "/relative/path" []
  have h2 := claim4_url_validation "://x" []
  exact ⟨h1.2 { scheme := "", user := "", host := "", path := "/relative/path" } rfl rfl,
         h2.1 "missing protocol scheme" rfl⟩

end Appkit
